import Mathlib

/-!
Verification of the buffered ingestion and batched persistence pipeline of
`integrationos-api` (`src/integrationos-api/src/server.rs`, `Server::init`,
lines 201-307).

The two consumer loops (event consumer, metric consumer) are embedded as pure
step functions over an explicit trace of receive results.  Each iteration of
the Rust loop performs `timeout(dur, receiver.recv())`, whose outcome is one
of three cases: `Ok(Some(record))` (a record arrived), `Ok(None)` (the
channel is closed and drained), or `Err(Elapsed)` (the idle timeout fired).
We model the outcome of one such receive as `RecvResult` and a whole
execution as a list of such outcomes, in arrival order.
-/

/-- Outcome of one `timeout(dur, receiver.recv())` call in the consumer
loops of `Server::init`.  `received r` is `Ok(Some(r))`, `closed` is
`Ok(None)` (channel closed and drained), `timedOut` is `Err(Elapsed)`. -/
inductive RecvResult (α : Type) where
  | received : α → RecvResult α
  | closed : RecvResult α
  | timedOut : RecvResult α
  deriving DecidableEq, Repr

/-- One iteration of the event-consumer loop (server.rs lines 207-238).

The Rust body is:
```
let is_timeout = if let Ok(Some(event)) = res { buffer.push(event); false }
                 else if let Ok(None) = res { break; }
                 else { true };
if buffer.len() == config.event_save_buffer_size || (is_timeout && !buffer.is_empty()) {
    let to_save = std::mem::replace(&mut buffer, Vec::with_capacity(..));
    tokio::spawn(insert_many(to_save));
}
```
Result: `none` means the loop breaks (channel closed; note the `break`
happens before the flush check, so no flush is issued on closure).
`some (buffer', flushed)` gives the buffer after the iteration and the
batch dispatched to `insert_many`, if any. -/
def eventConsumerStep {α : Type} (cap : Nat) (buffer : List α) :
    RecvResult α → Option (List α × Option (List α))
  | RecvResult.closed => none
  | res =>
    let buffer := match res with
      | RecvResult.received e => buffer ++ [e]
      | _ => buffer
    let is_timeout := match res with
      | RecvResult.timedOut => true
      | _ => false
    if buffer.length == cap || (is_timeout && !buffer.isEmpty) then
      some ([], some buffer)
    else
      some (buffer, none)

/-- Run the event-consumer loop over a trace of receive outcomes, starting
from `buffer`.  Returns the buffer held when the run stops, the list of
dispatched batches in dispatch order, and whether the loop terminated
(`break` on channel closure).  When the loop breaks, the records still in
the buffer are simply dropped (they appear in the first component but in no
dispatched batch), exactly as in the Rust code. -/
def eventConsumerRun {α : Type} (cap : Nat) (buffer : List α) :
    List (RecvResult α) → List α × List (List α) × Bool
  | [] => (buffer, [], false)
  | r :: rs =>
    match eventConsumerStep cap buffer r with
    | none => (buffer, [], true)
    | some (b, none) => eventConsumerRun cap b rs
    | some (b, some batch) =>
      let rest := eventConsumerRun cap b rs
      (rest.1, batch :: rest.2.1, rest.2.2)

/-- The records carried by the `received` entries of a trace, in order. -/
def receivedOf {α : Type} (trace : List (RecvResult α)) : List α :=
  trace.filterMap fun r =>
    match r with
    | RecvResult.received e => some e
    | _ => none

/-- Whether a receive outcome is the closure signal `Ok(None)`. -/
def RecvResult.isClosed {α : Type} : RecvResult α → Bool
  | RecvResult.closed => true
  | _ => false

/-- A trace contains no closure signal. -/
def noClosed {α : Type} (trace : List (RecvResult α)) : Prop :=
  ∀ r ∈ trace, r.isClosed = false

instance {α : Type} (trace : List (RecvResult α)) : Decidable (noClosed trace) := by
  unfold noClosed
  infer_instance

/-!
## Configuration and bounded queue

`ConnectionsConfig` is declared outside the reviewed surface; only the fields
that `Server::init` reads for the pipeline are modelled.  The bounded queue
is `tokio::sync::mpsc::channel`, an external collaborator; it is modelled at
its boundary as the spec describes it (fixed capacity, FIFO, terminal
closure).
-/

/-- The pipeline-relevant fields of `ConnectionsConfig`, as read by
`Server::init` (server.rs lines 204, 206, 209, 223, 229, 245-253, 259). -/
structure ConnectionsConfig where
  event_save_buffer_size : Nat
  event_save_timeout_secs : Nat
  metric_save_channel_size : Nat
  metric_system_id : String
  segment_write_key : Option String
  deriving Repr

/-- Capacity of the bounded event submission channel:
`tokio::sync::mpsc::channel::<Event>(config.event_save_buffer_size)`
(server.rs line 204). -/
def eventChannelCapacity (c : ConnectionsConfig) : Nat :=
  c.event_save_buffer_size

/-- Batch capacity of the event accumulator: the buffer is created with
`Vec::with_capacity(config.event_save_buffer_size)` (line 206) and flushed
when `buffer.len() == config.event_save_buffer_size` (line 223). -/
def eventBatchCapacity (c : ConnectionsConfig) : Nat :=
  c.event_save_buffer_size

/-- Modelled from the spec: the bounded submission queue
(`tokio::sync::mpsc` channel, an external collaborator declared outside
src/).  Capacity is fixed at construction; closing is terminal. -/
structure BoundedQueue (α : Type) where
  capacity : Nat
  items : List α
  closed : Bool
  deriving Repr

/-- Result of a `submit` (channel `send`) call. `blocked` models the caller
suspending on a full queue (the backpressure branch). -/
inductive SubmitResult where
  | acknowledged : SubmitResult
  | queueClosed : SubmitResult
  | blocked : SubmitResult
  deriving DecidableEq, Repr

/-- Modelled from the spec: `submit(record)` on the bounded queue.  A send
on a closed channel fails with `queue_closed`; a send on a full channel
blocks; otherwise the record is appended FIFO. -/
def submit {α : Type} (q : BoundedQueue α) (r : α) : BoundedQueue α × SubmitResult :=
  if q.closed then
    (q, SubmitResult.queueClosed)
  else if q.items.length == q.capacity then
    (q, SubmitResult.blocked)
  else
    ({ q with items := q.items ++ [r] }, SubmitResult.acknowledged)

/-!
## Metric consumer

The metric consumer (server.rs lines 254-307) processes each metric
individually: it derives one update document, issues two upserts (one
filtered by the metric's client id, one by the configured system id), joins
them with `try_join!`, logs a single error if the join fails, and then — if
a segment batcher is configured — pushes a tracking message, logging a
warning on push failure.  On receive timeout it flushes the batcher; after
the loop breaks on channel closure it flushes the batcher once more.

Effects are made explicit: the outcome of each fallible external call
(upserts, push, flush) is an input to the model, and the model records the
calls issued and the log lines emitted.
-/

/-- A metric record as used by the metric consumer: its owning client id
(`metric.ownership().client_id`), its derived update document
(`metric.update_doc()`), and its tracking message (`metric.segment_track()`).
The documents are opaque to the consumer and modelled as strings. -/
structure Metric where
  clientId : String
  updateDoc : String
  track : String
  deriving DecidableEq, Repr

/-- One upsert call issued against the metric store: the `clientId` value of
the filter document, the update document, and the `upsert` flag of the
`UpdateOptions`. -/
structure UpsertCall where
  filterClientId : String
  update : String
  upsert : Bool
  deriving DecidableEq, Repr

/-- Outcomes of the fallible external calls made while processing one
metric: the two upserts and the batcher push. -/
structure MetricOutcome where
  clientResult : Except String Unit
  systemResult : Except String Unit
  pushResult : Except String Unit

/-- `tokio::try_join!` on two already-determined results: the joined result
is `ok` iff both are, and otherwise carries the first error. -/
def tryJoin (a b : Except String Unit) : Except String Unit :=
  match a with
  | Except.error e => Except.error e
  | Except.ok _ => b

/-- Effects of processing one received metric (server.rs lines 263-290). -/
structure MetricEffects where
  upserts : List UpsertCall
  errorLogs : Nat
  warnLogs : Nat
  pushes : List String
  deriving DecidableEq, Repr

/-- The `Ok(Some(metric))` branch of the metric consumer loop (server.rs
lines 263-290): build the two upsert calls (identical update document,
`upsert(true)` options, filters by the metric's client id and by
`metric_system_id`), log one error if `try_join!` fails, then push the
tracking message when a batcher is configured, logging a warning if the
push fails. -/
def processMetric (systemId : String) (batcherConfigured : Bool)
    (m : Metric) (o : MetricOutcome) : MetricEffects :=
  let doc := m.updateDoc
  let clientCall : UpsertCall := ⟨m.clientId, doc, true⟩
  let systemCall : UpsertCall := ⟨systemId, doc, true⟩
  let errorLogs :=
    match tryJoin o.clientResult o.systemResult with
    | Except.error _ => 1
    | Except.ok _ => 0
  if batcherConfigured then
    let warnLogs :=
      match o.pushResult with
      | Except.error _ => 1
      | Except.ok _ => 0
    ⟨[clientCall, systemCall], errorLogs, warnLogs, [m.track]⟩
  else
    ⟨[clientCall, systemCall], errorLogs, 0, []⟩

/-- One entry of the metric consumer's trace: a received metric together
with the outcomes of the external calls made for it, an idle timeout
together with the outcome of the batcher flush taken on it, or channel
closure together with the outcome of the one final batcher flush performed
after the loop breaks. -/
inductive MetricEvent where
  | received : Metric → MetricOutcome → MetricEvent
  | timedOut : Except String Unit → MetricEvent
  | closed : Except String Unit → MetricEvent

/-- Whether a metric-trace entry is the closure signal. -/
def MetricEvent.isClosed : MetricEvent → Bool
  | MetricEvent.closed _ => true
  | _ => false

/-- Accumulated effects of a metric-consumer run. -/
structure MetricRunEffects where
  upserts : List UpsertCall
  errorLogs : Nat
  warnLogs : Nat
  pushes : List String
  flushes : Nat
  terminated : Bool
  deriving DecidableEq, Repr

/-- Sequential composition of per-iteration effects. -/
def MetricEffects.andThen (e : MetricEffects) (r : MetricRunEffects) :
    MetricRunEffects :=
  ⟨e.upserts ++ r.upserts, e.errorLogs + r.errorLogs, e.warnLogs + r.warnLogs,
    e.pushes ++ r.pushes, r.flushes, r.terminated⟩

/-- Run the metric-consumer loop (server.rs lines 254-307) over a trace.

`Ok(Some(metric))` processes the metric (`processMetric`); `Err(Elapsed)`
flushes the batcher when one is configured, logging a warning on flush
failure; `Ok(None)` breaks out of the loop, after which one final batcher
flush runs (lines 302-306), again warning on failure, and the task
terminates. -/
def metricConsumerRun (systemId : String) (batcherConfigured : Bool) :
    List MetricEvent → MetricRunEffects
  | [] => ⟨[], 0, 0, [], 0, false⟩
  | MetricEvent.received m o :: rest =>
    (processMetric systemId batcherConfigured m o).andThen
      (metricConsumerRun systemId batcherConfigured rest)
  | MetricEvent.timedOut fo :: rest =>
    let r := metricConsumerRun systemId batcherConfigured rest
    if batcherConfigured then
      let w := match fo with
        | Except.error _ => 1
        | Except.ok _ => 0
      { r with warnLogs := w + r.warnLogs, flushes := 1 + r.flushes }
    else
      r
  | MetricEvent.closed fo :: _ =>
    if batcherConfigured then
      let w := match fo with
        | Except.error _ => 1
        | Except.ok _ => 0
      ⟨[], 0, w, [], 1, true⟩
    else
      ⟨[], 0, 0, [], 0, true⟩

/-- Number of idle timeouts in a metric trace. -/
def countTimedOut : List MetricEvent → Nat
  | [] => 0
  | MetricEvent.timedOut _ :: rest => 1 + countTimedOut rest
  | _ :: rest => countTimedOut rest

/-- The batches dispatched when `records` arrive back-to-back (faster than
the idle timeout) and the line then goes idle once: the event consumer is
run from an empty buffer over the corresponding receive outcomes followed
by one timeout. -/
def eventFlushes {α : Type} (cap : Nat) (records : List α) : List (List α) :=
  (eventConsumerRun cap []
    (records.map RecvResult.received ++ [RecvResult.timedOut])).2.1

/-- One warning is logged when a batcher flush fails, none when it
succeeds (`if let Err(e) = batcher.flush().await { warn!(...) }`). -/
def warnOnErr : Except String Unit → Nat
  | Except.error _ => 1
  | Except.ok _ => 0

example : eventConsumerRun 3 ([] : List Nat)
    [RecvResult.received 1, RecvResult.received 2, RecvResult.received 3,
     RecvResult.received 4, RecvResult.timedOut] =
    ([], [[1, 2, 3], [4]], false) := by decide

example : eventConsumerRun 3 ([] : List Nat)
    [RecvResult.received 1, RecvResult.closed] = ([1], [], true) := by decide

example : eventConsumerRun 3 ([] : List Nat)
    [RecvResult.timedOut, RecvResult.received 1, RecvResult.timedOut] =
    ([], [[1]], false) := by decide

/-!
## Lemmas about the event consumer
-/

/-- On a received record, the step appends the record and flushes exactly
when the buffer length reaches the capacity. -/
theorem eventConsumerStep_received {α : Type} (cap : Nat) (b : List α) (e : α) :
    eventConsumerStep cap b (RecvResult.received e) =
      if (b ++ [e]).length = cap then some ([], some (b ++ [e]))
      else some (b ++ [e], none) := by
  by_cases h : (b ++ [e]).length = cap <;>
    simp [eventConsumerStep, h]

/-- On a timeout, the step flushes exactly when the buffer is non-empty
(given a positive capacity). -/
theorem eventConsumerStep_timedOut {α : Type} (cap : Nat) (h : 0 < cap)
    (b : List α) :
    eventConsumerStep cap b RecvResult.timedOut =
      if b.isEmpty then some (b, none) else some ([], some b) := by
  cases b with
  | nil => simp [eventConsumerStep, Nat.ne_of_lt h]
  | cons x xs => simp [eventConsumerStep]

/-- A step on a non-closure receive outcome never breaks the loop. -/
theorem eventConsumerStep_ne_none {α : Type} (cap : Nat) (b : List α)
    (r : RecvResult α) (h : r.isClosed = false) :
    eventConsumerStep cap b r ≠ none := by
  cases r with
  | closed => simp [RecvResult.isClosed] at h
  | received e => simp [eventConsumerStep]; split <;> simp
  | timedOut => simp [eventConsumerStep]; split <;> simp

/-- Running over a concatenated trace whose first part contains no closure
signal is running over the parts in sequence, concatenating the dispatched
batches. -/
theorem eventConsumerRun_append {α : Type} (cap : Nat)
    (t1 t2 : List (RecvResult α)) : ∀ b : List α, noClosed t1 →
    eventConsumerRun cap b (t1 ++ t2) =
      ((eventConsumerRun cap (eventConsumerRun cap b t1).1 t2).1,
       (eventConsumerRun cap b t1).2.1 ++
         (eventConsumerRun cap (eventConsumerRun cap b t1).1 t2).2.1,
       (eventConsumerRun cap (eventConsumerRun cap b t1).1 t2).2.2) := by
  induction t1 with
  | nil => intro b _; simp [eventConsumerRun]
  | cons r rs ih =>
    intro b h
    have hr : r.isClosed = false := h r (List.mem_cons_self r rs)
    have hrs : noClosed rs := fun x hx => h x (List.mem_cons_of_mem r hx)
    cases hstep : eventConsumerStep cap b r with
    | none => exact absurd hstep (eventConsumerStep_ne_none cap b r hr)
    | some p =>
      obtain ⟨b', opt⟩ := p
      cases opt with
      | none =>
        simp only [List.cons_append, eventConsumerRun, hstep]
        exact ih b' hrs
      | some batch =>
        simp only [List.cons_append, eventConsumerRun, hstep, List.append_eq]
        rw [ih b' hrs]

theorem receivedOf_cons_received {α : Type} (e : α) (rs : List (RecvResult α)) :
    receivedOf (RecvResult.received e :: rs) = e :: receivedOf rs := rfl

theorem receivedOf_cons_timedOut {α : Type} (rs : List (RecvResult α)) :
    receivedOf (RecvResult.timedOut :: rs) = receivedOf rs := rfl

/-- Conservation: over a closure-free trace, the dispatched batches followed
by the remaining buffer are exactly the initial buffer followed by the
received records, in order.  No record is duplicated, dropped or
reordered. -/
theorem eventConsumerRun_conservation {α : Type} (cap : Nat) (h : 0 < cap)
    (t : List (RecvResult α)) : ∀ b : List α, noClosed t →
    ((eventConsumerRun cap b t).2.1).flatten ++ (eventConsumerRun cap b t).1 =
      b ++ receivedOf t := by
  induction t with
  | nil => intro b _; simp [eventConsumerRun, receivedOf]
  | cons r rs ih =>
    intro b hnc
    have hr := hnc r (List.mem_cons_self r rs)
    have hrs : noClosed rs := fun x hx => hnc x (List.mem_cons_of_mem r hx)
    cases r with
    | closed => simp [RecvResult.isClosed] at hr
    | received e =>
      by_cases hc : (b ++ [e]).length = cap
      · simp only [eventConsumerRun, eventConsumerStep_received, hc, if_pos,
          receivedOf_cons_received]
        have := ih [] hrs
        simp only [List.nil_append] at this
        simp [List.append_assoc, this]
      · simp only [eventConsumerRun, eventConsumerStep_received, hc, if_neg,
          if_false, receivedOf_cons_received]
        have := ih (b ++ [e]) hrs
        simp only [List.append_assoc, List.singleton_append] at this ⊢
        exact this
    | timedOut =>
      cases b with
      | nil =>
        have hbe : (([] : List α)).isEmpty = true := rfl
        simp only [eventConsumerRun, eventConsumerStep_timedOut cap h, hbe,
          if_pos, receivedOf_cons_timedOut]
        exact ih [] hrs
      | cons x xs =>
        have hbe : ((x :: xs)).isEmpty = false := rfl
        simp only [eventConsumerRun, eventConsumerStep_timedOut cap h, hbe,
          Bool.false_eq_true, if_neg, if_false, receivedOf_cons_timedOut]
        have := ih [] hrs
        simp only [List.nil_append] at this
        simp [List.append_assoc, this]

/-- Closure-free traces never break the loop. -/
theorem eventConsumerRun_not_terminated {α : Type} (cap : Nat)
    (t : List (RecvResult α)) : ∀ b : List α, noClosed t →
    (eventConsumerRun cap b t).2.2 = false := by
  induction t with
  | nil => intro b _; rfl
  | cons r rs ih =>
    intro b hnc
    have hr := hnc r (List.mem_cons_self r rs)
    have hrs : noClosed rs := fun x hx => hnc x (List.mem_cons_of_mem r hx)
    cases hstep : eventConsumerStep cap b r with
    | none => exact absurd hstep (eventConsumerStep_ne_none cap b r hr)
    | some p =>
      obtain ⟨b', opt⟩ := p
      cases opt with
      | none => simp only [eventConsumerRun, hstep]; exact ih b' hrs
      | some batch => simp only [eventConsumerRun, hstep]; exact ih b' hrs


/-- One loop iteration that neither breaks nor flushes. -/
theorem eventConsumerRun_cons_no_flush {α : Type} (cap : Nat)
    (b b' : List α) (r : RecvResult α) (rs : List (RecvResult α))
    (h : eventConsumerStep cap b r = some (b', none)) :
    eventConsumerRun cap b (r :: rs) = eventConsumerRun cap b' rs := by
  simp only [eventConsumerRun, h]

/-- One loop iteration that flushes a batch. -/
theorem eventConsumerRun_cons_flush {α : Type} (cap : Nat)
    (b b' batch : List α) (r : RecvResult α) (rs : List (RecvResult α))
    (h : eventConsumerStep cap b r = some (b', some batch)) :
    eventConsumerRun cap b (r :: rs) =
      ((eventConsumerRun cap b' rs).1,
       batch :: (eventConsumerRun cap b' rs).2.1,
       (eventConsumerRun cap b' rs).2.2) := by
  simp only [eventConsumerRun, h]

/-- A run of received records that cannot fill the buffer appends them all
and dispatches nothing. -/
theorem eventConsumerRun_received_no_flush {α : Type} (cap : Nat)
    (rs : List α) : ∀ b : List α, b.length + rs.length < cap →
    eventConsumerRun cap b (rs.map RecvResult.received) = (b ++ rs, [], false) := by
  induction rs with
  | nil => intro b _; simp [eventConsumerRun]
  | cons e es ih =>
    intro b hlen
    have hne : ¬ ((b ++ [e]).length = cap) := by
      simp only [List.length_append, List.length_cons, List.length_nil] at *
      omega
    rw [List.map_cons,
      eventConsumerRun_cons_no_flush cap b (b ++ [e]) _ _
        (by rw [eventConsumerStep_received, if_neg hne]),
      ih (b ++ [e]) (by
        simp only [List.length_append, List.length_cons, List.length_nil] at *
        omega)]
    simp

/-- A run of received records that exactly fills the buffer dispatches one
batch — the whole buffer including all of them — and leaves a fresh empty
buffer. -/
theorem eventConsumerRun_received_fills {α : Type} (cap : Nat)
    (rs : List α) : ∀ b : List α, rs ≠ [] → b.length + rs.length = cap →
    eventConsumerRun cap b (rs.map RecvResult.received) = ([], [b ++ rs], false) := by
  induction rs with
  | nil => intro b hne _; exact absurd rfl hne
  | cons e es ih =>
    intro b _ hlen
    cases es with
    | nil =>
      have hc : (b ++ [e]).length = cap := by
        simp only [List.length_append, List.length_cons, List.length_nil] at *
        omega
      rw [List.map_cons, List.map_nil,
        eventConsumerRun_cons_flush cap b [] (b ++ [e]) _ _
          (by rw [eventConsumerStep_received, if_pos hc])]
      simp [eventConsumerRun]
    | cons e2 es2 =>
      have hne : ¬ ((b ++ [e]).length = cap) := by
        simp only [List.length_append, List.length_cons, List.length_nil] at *
        omega
      rw [List.map_cons,
        eventConsumerRun_cons_no_flush cap b (b ++ [e]) _ _
          (by rw [eventConsumerStep_received, if_neg hne]),
        ih (b ++ [e]) (List.cons_ne_nil e2 es2) (by
          simp only [List.length_append, List.length_cons, List.length_nil] at *
          omega)]
      simp

/-- A trace consisting only of received records contains no closure. -/
theorem noClosed_map_received {α : Type} (rs : List α) :
    noClosed (rs.map RecvResult.received) := by
  intro r hr
  obtain ⟨x, _, rfl⟩ := List.mem_map.mp hr
  rfl

/-- Fewer records than the capacity: everything is dispatched by the single
trailing idle timeout, as one batch (or no batch at all when there are no
records). -/
theorem eventFlushes_small {α : Type} (cap : Nat) (h : 0 < cap)
    (records : List α) (hlt : records.length < cap) :
    eventFlushes cap records = if records.isEmpty then [] else [records] := by
  unfold eventFlushes
  rw [eventConsumerRun_append cap _ _ [] (noClosed_map_received records),
    eventConsumerRun_received_no_flush cap records []
      (by simpa using hlt)]
  cases records with
  | nil =>
    simp [eventConsumerRun, eventConsumerStep_timedOut cap h]
  | cons x xs =>
    have hbe : ((x :: xs)).isEmpty = false := rfl
    rw [show (([] : List α) ++ x :: xs) = x :: xs from rfl]
    rw [eventConsumerRun_cons_flush cap (x :: xs) [] (x :: xs) _ _
      (by rw [eventConsumerStep_timedOut cap h, hbe]; rfl)]
    simp [eventConsumerRun, hbe]

/-- At least `cap` records: the first `cap` of them are dispatched as one
full batch as soon as the `cap`-th arrives, and the run continues on the
rest from a fresh empty buffer. -/
theorem eventFlushes_step {α : Type} (cap : Nat) (h : 0 < cap)
    (records : List α) (hge : cap ≤ records.length) :
    eventFlushes cap records =
      records.take cap :: eventFlushes cap (records.drop cap) := by
  unfold eventFlushes
  have htake : (records.take cap).length = cap := by
    simp [List.length_take, Nat.min_eq_left hge]
  have htake_ne : records.take cap ≠ [] := by
    intro hnil
    rw [hnil] at htake
    simp at htake
    omega
  conv_lhs =>
    rw [show records = records.take cap ++ records.drop cap from
      (List.take_append_drop cap records).symm]
  rw [List.map_append, List.append_assoc,
    eventConsumerRun_append cap _ _ [] (noClosed_map_received _),
    eventConsumerRun_received_fills cap (records.take cap) []
      htake_ne (by simpa using htake)]
  simp

/-- Counting and shape of the dispatched batches: `ceil (N / cap)` batches,
all of them full except possibly the last. -/
theorem eventFlushes_spec {α : Type} (cap : Nat) (h : 0 < cap) :
    ∀ n (records : List α), records.length ≤ n →
    (eventFlushes cap records).length = (records.length + cap - 1) / cap ∧
    (∀ b ∈ (eventFlushes cap records).dropLast, b.length = cap) ∧
    (∀ b ∈ eventFlushes cap records, b.length ≤ cap) := by
  intro n
  induction n with
  | zero =>
    intro records hle
    have hnil : records = [] := List.eq_nil_of_length_eq_zero (Nat.le_zero.mp hle)
    subst hnil
    rw [eventFlushes_small cap h [] (by simpa using h)]
    refine ⟨?_, by simp, by simp⟩
    simp [Nat.div_eq_of_lt (by omega : cap - 1 < cap)]
  | succ n ih =>
    intro records hle
    by_cases hlt : records.length < cap
    · rw [eventFlushes_small cap h records hlt]
      cases records with
      | nil =>
        refine ⟨?_, by simp, by simp⟩
        simp [Nat.div_eq_of_lt (by omega : cap - 1 < cap)]
      | cons x xs =>
        have hbe : ((x :: xs)).isEmpty = false := rfl
        rw [hbe]
        have hL : 0 < (x :: xs).length := by simp
        refine ⟨?_, ?_, ?_⟩
        · have h1 : (x :: xs).length + cap - 1 = ((x :: xs).length - 1) + cap := by
            omega
          rw [if_neg (by simp), List.length_singleton, h1,
            Nat.add_div_right _ h,
            Nat.div_eq_of_lt (by omega : (x :: xs).length - 1 < cap)]
        · intro b hb
          rw [if_neg (by simp)] at hb
          simp at hb
        · intro b hb
          rw [if_neg (by simp)] at hb
          simp at hb
          subst hb
          omega
    · have hge : cap ≤ records.length := Nat.le_of_not_lt hlt
      have hpos : 0 < records.length := Nat.lt_of_lt_of_le h hge
      rw [eventFlushes_step cap h records hge]
      have hdroplen : (records.drop cap).length ≤ n := by
        rw [List.length_drop]
        omega
      obtain ⟨ihc, ihd, ihb⟩ := ih (records.drop cap) hdroplen
      have htake : (records.take cap).length = cap := by
        simp [List.length_take, Nat.min_eq_left hge]
      refine ⟨?_, ?_, ?_⟩
      · rw [List.length_cons, ihc, List.length_drop]
        have h1 : records.length + cap - 1 =
            ((records.length - cap) + cap - 1) + cap := by omega
        rw [h1, Nat.add_div_right _ h]
      · intro b hb
        cases hflushes : eventFlushes cap (records.drop cap) with
        | nil =>
          rw [hflushes, List.dropLast_single] at hb
          simp at hb
        | cons y ys =>
          rw [hflushes, List.dropLast_cons₂] at hb
          rcases List.mem_cons.mp hb with hb1 | hb2
          · rw [hb1]; exact htake
          · exact ihd b (by rw [hflushes]; exact hb2)
      · intro b hb
        rcases List.mem_cons.mp hb with hb1 | hb2
        · rw [hb1, htake]
        · exact ihb b hb2

/-- Appending the closure signal to a closure-free metric trace: the run
performs exactly one additional batcher flush (warning on its failure) and
terminates; every other effect is that of the closure-free prefix. -/
theorem metricConsumerRun_append_closed (systemId : String) :
    ∀ t : List MetricEvent, (∀ ev ∈ t, ev.isClosed = false) →
    ∀ fo : Except String Unit,
    metricConsumerRun systemId true (t ++ [MetricEvent.closed fo]) =
      { upserts := (metricConsumerRun systemId true t).upserts,
        errorLogs := (metricConsumerRun systemId true t).errorLogs,
        warnLogs := (metricConsumerRun systemId true t).warnLogs + warnOnErr fo,
        pushes := (metricConsumerRun systemId true t).pushes,
        flushes := countTimedOut t + 1,
        terminated := true } := by
  intro t
  induction t with
  | nil =>
    intro _ fo
    cases fo <;> simp [metricConsumerRun, countTimedOut, warnOnErr]
  | cons ev rest ih =>
    intro h fo
    have hrest : ∀ e ∈ rest, e.isClosed = false :=
      fun e he => h e (List.mem_cons_of_mem ev he)
    cases ev with
    | received m o =>
      simp only [List.cons_append, metricConsumerRun]
      rw [show rest.append [MetricEvent.closed fo] = rest ++ [MetricEvent.closed fo]
          from rfl, ih hrest fo]
      simp only [MetricEffects.andThen, countTimedOut]
      simp [Nat.add_assoc]
    | timedOut fo2 =>
      simp only [List.cons_append, metricConsumerRun]
      rw [show rest.append [MetricEvent.closed fo] = rest ++ [MetricEvent.closed fo]
          from rfl, ih hrest fo]
      simp only [countTimedOut]
      cases fo2 <;> (simp [warnOnErr]; try omega)
    | closed fo2 =>
      have := h (MetricEvent.closed fo2) (List.mem_cons_self _ _)
      simp [MetricEvent.isClosed] at this

/-!
## Claim theorems
-/

/-- C1 (counterexample): the claim "queue closure with M > 0 buffered,
unflushed records guarantees exactly one final write call containing all M
records" is false.  With capacity 3, after receiving one record (buffer
`[1]`, so M = 1 > 0) and then observing closure, the consumer breaks out of
the loop before the flush check: it terminates with the record still in the
buffer and dispatches no write call at all, rather than one final write
`[[1]]`. -/
theorem event_close_drops_buffer_counterexample :
    (eventConsumerRun 3 ([] : List Nat)
        [RecvResult.received 1, RecvResult.closed]).2.2 = true ∧
    (eventConsumerRun 3 ([] : List Nat)
        [RecvResult.received 1, RecvResult.closed]).1 = [1] ∧
    (eventConsumerRun 3 ([] : List Nat)
        [RecvResult.received 1, RecvResult.closed]).2.1 = [] ∧
    ¬ ((eventConsumerRun 3 ([] : List Nat)
        [RecvResult.received 1, RecvResult.closed]).2.1 = [[1]]) := by
  decide

/-- C1 (amended): when the submission queue is closed, the event consumer
terminates immediately without issuing any further write call — the records
still buffered are discarded, not flushed — and no `submit` call succeeds
after closure. -/
theorem event_close_no_final_flush (cap : Nat) (t : List (RecvResult Nat))
    (hnc : noClosed t) (q : BoundedQueue Nat) (hq : q.closed = true) (r : Nat) :
    (eventConsumerRun cap [] (t ++ [RecvResult.closed])).2.1 =
      (eventConsumerRun cap [] t).2.1 ∧
    (eventConsumerRun cap [] (t ++ [RecvResult.closed])).1 =
      (eventConsumerRun cap [] t).1 ∧
    (eventConsumerRun cap [] (t ++ [RecvResult.closed])).2.2 = true ∧
    (submit q r).2 = SubmitResult.queueClosed := by
  rw [eventConsumerRun_append cap t [RecvResult.closed] [] hnc]
  refine ⟨by simp [eventConsumerRun, eventConsumerStep], rfl, rfl, ?_⟩
  simp [submit, hq]

theorem event_close_no_final_flush_witness :
    noClosed [RecvResult.received 5] ∧
    (BoundedQueue.mk 2 ([] : List Nat) true).closed = true ∧
    ((eventConsumerRun 2 []
        ([RecvResult.received 5] ++ [RecvResult.closed])).2.1 =
      (eventConsumerRun 2 [] [RecvResult.received 5]).2.1 ∧
    (eventConsumerRun 2 []
        ([RecvResult.received 5] ++ [RecvResult.closed])).1 =
      (eventConsumerRun 2 [] [RecvResult.received 5]).1 ∧
    (eventConsumerRun 2 []
        ([RecvResult.received 5] ++ [RecvResult.closed])).2.2 = true ∧
    (submit (BoundedQueue.mk 2 ([] : List Nat) true) 9).2 =
      SubmitResult.queueClosed) :=
  ⟨by decide, rfl,
    event_close_no_final_flush 2 [RecvResult.received 5] (by decide)
      (BoundedQueue.mk 2 [] true) rfl 9⟩

/-- C2 (counterexample): the claim that each dual-upsert failure is "logged
individually per destination" is false.  When both destinations fail for
one metric, individual per-destination logging would emit two error log
entries; the code has a single `error!` on the joined `try_join!` result
and emits exactly one. -/
theorem metric_dual_failure_single_log_counterexample :
    (processMetric "system-id" true (Metric.mk "c1" "doc" "track")
        (MetricOutcome.mk (Except.error "client upsert failed")
          (Except.error "system upsert failed") (Except.ok ()))).errorLogs = 1 ∧
    ¬ ((processMetric "system-id" true (Metric.mk "c1" "doc" "track")
        (MetricOutcome.mk (Except.error "client upsert failed")
          (Except.error "system upsert failed") (Except.ok ()))).errorLogs = 2) := by
  constructor
  · rfl
  · intro hcontra
    simp [processMetric, tryJoin] at hcontra

/-- C2 (amended): whatever the outcomes, both upsert calls are constructed
and issued with the same update document and neither is rolled back (no
compensating call exists), but a failure of the pair is logged once, as a
single combined error — the first error of the joined result — rather than
individually per destination. -/
theorem metric_dual_failure_no_rollback_single_log (systemId : String)
    (bc : Bool) (m : Metric) (o : MetricOutcome) :
    (processMetric systemId bc m o).upserts =
      [UpsertCall.mk m.clientId m.updateDoc true,
       UpsertCall.mk systemId m.updateDoc true] ∧
    (processMetric systemId bc m o).errorLogs =
      warnOnErr (tryJoin o.clientResult o.systemResult) := by
  cases bc <;>
    refine ⟨rfl, ?_⟩ <;>
    (cases h : tryJoin o.clientResult o.systemResult <;>
      simp [processMetric, warnOnErr, h])

/-- C3: the event consumer flushes exactly when (a) a received record makes
the buffer length reach the configured capacity, or (b) a timeout fires
with a non-empty buffer; a timeout with an empty buffer produces no flush
and leaves the buffer unchanged. -/
theorem event_flush_trigger_characterization (cap : Nat) (h : 0 < cap)
    (b : List Nat) (e : Nat) :
    (eventConsumerStep cap b (RecvResult.received e) =
      if (b ++ [e]).length = cap then some ([], some (b ++ [e]))
      else some (b ++ [e], none)) ∧
    (eventConsumerStep cap b RecvResult.timedOut =
      if b.isEmpty then some (b, none) else some ([], some b)) :=
  ⟨eventConsumerStep_received cap b e, eventConsumerStep_timedOut cap h b⟩

theorem event_flush_trigger_characterization_witness :
    0 < 3 ∧
    ((eventConsumerStep 3 [10] (RecvResult.received 20) =
      if (([10] ++ [20] : List Nat).length = 3) then some ([], some ([10] ++ [20]))
      else some ([10] ++ [20], none)) ∧
    (eventConsumerStep 3 ([10] : List Nat) RecvResult.timedOut =
      if ([10] : List Nat).isEmpty then some ([10], none)
      else some ([], some [10]))) :=
  ⟨by decide, event_flush_trigger_characterization 3 (by decide) [10] 20⟩

/-- C4: for every received metric, exactly two upsert calls are issued —
one filtered by the metric's client id, one filtered by the configured
system id — both carrying the identical update document derived from the
metric and both with the upsert (create-if-absent) option enabled. -/
theorem metric_dual_upsert_shape (systemId : String) (bc : Bool) (m : Metric)
    (o : MetricOutcome) :
    (processMetric systemId bc m o).upserts.length = 2 ∧
    (processMetric systemId bc m o).upserts =
      [UpsertCall.mk m.clientId m.updateDoc true,
       UpsertCall.mk systemId m.updateDoc true] ∧
    ∀ call ∈ (processMetric systemId bc m o).upserts,
      call.update = m.updateDoc ∧ call.upsert = true := by
  cases bc <;>
    refine ⟨rfl, rfl, ?_⟩ <;>
    (intro call hcall
     rcases List.mem_cons.mp hcall with h1 | h2
     · subst h1; exact ⟨rfl, rfl⟩
     · rcases List.mem_cons.mp h2 with h3 | h4
       · subst h3; exact ⟨rfl, rfl⟩
       · simp [processMetric] at h4)

/-- C5: when N records arrive faster than the idle timeout (a burst of
receives followed by one idle timeout), the number of dispatched write
calls is `⌈N / cap⌉` (written `(N + cap - 1) / cap` in natural division)
and every dispatched batch holds exactly `cap` records except possibly the
last, which never exceeds `cap`. -/
theorem event_batch_count_and_sizes (cap : Nat) (h : 0 < cap)
    (records : List Nat) :
    (eventFlushes cap records).length = (records.length + cap - 1) / cap ∧
    (∀ b ∈ (eventFlushes cap records).dropLast, b.length = cap) ∧
    (∀ b ∈ eventFlushes cap records, b.length ≤ cap) :=
  eventFlushes_spec cap h records.length records (Nat.le_refl _)

theorem event_batch_count_and_sizes_witness :
    0 < 3 ∧
    ((eventFlushes 3 [1, 2, 3, 4]).length = (([1, 2, 3, 4] : List Nat).length + 3 - 1) / 3 ∧
    (∀ b ∈ (eventFlushes 3 [1, 2, 3, 4]).dropLast, b.length = 3) ∧
    (∀ b ∈ eventFlushes 3 ([1, 2, 3, 4] : List Nat), b.length ≤ 3)) :=
  ⟨by decide, event_batch_count_and_sizes 3 (by decide) [1, 2, 3, 4]⟩

/-- C6: between flush decisions the buffer stays strictly below the
configured capacity (so it never exceeds it), and whenever a flush is
dispatched the batch is the entire accumulated buffer (at most `cap`
records) while the buffer left behind is a fresh empty one — the buffer is
swapped out by `std::mem::replace`, never appended to while draining. -/
theorem event_buffer_bound_and_swap (cap : Nat) (b b' : List Nat)
    (fop : Option (List Nat)) (r : RecvResult Nat) (h : b.length < cap)
    (hstep : eventConsumerStep cap b r = some (b', fop)) :
    b'.length < cap ∧
    ∀ batch, fop = some batch → batch.length ≤ cap ∧ b' = [] := by
  cases r with
  | closed => simp [eventConsumerStep] at hstep
  | received e =>
    rw [eventConsumerStep_received] at hstep
    by_cases hc : (b ++ [e]).length = cap
    · rw [if_pos hc] at hstep
      simp only [Option.some.injEq, Prod.mk.injEq] at hstep
      obtain ⟨hb', hf⟩ := hstep
      subst hb'
      refine ⟨by simp only [List.length_nil]; omega, ?_⟩
      intro batch hbatch
      rw [← hf] at hbatch
      injection hbatch with hbeq
      have hlen : batch.length = cap := by rw [← hbeq]; exact hc
      exact ⟨Nat.le_of_eq hlen, rfl⟩
    · rw [if_neg hc] at hstep
      simp only [Option.some.injEq, Prod.mk.injEq] at hstep
      obtain ⟨hb', hf⟩ := hstep
      subst hb'
      constructor
      · simp only [List.length_append, List.length_cons, List.length_nil] at hc ⊢
        omega
      · intro batch hbatch
        rw [← hf] at hbatch
        exact Option.noConfusion hbatch
  | timedOut =>
    have h0 : 0 < cap := Nat.lt_of_le_of_lt (Nat.zero_le _) h
    rw [eventConsumerStep_timedOut cap h0] at hstep
    cases b with
    | nil =>
      simp only [List.isEmpty_nil, if_true, Option.some.injEq,
        Prod.mk.injEq] at hstep
      obtain ⟨hb', hf⟩ := hstep
      subst hb'
      refine ⟨by simp only [List.length_nil]; omega, ?_⟩
      intro batch hbatch
      rw [← hf] at hbatch
      exact Option.noConfusion hbatch
    | cons x xs =>
      have hbe : ((x :: xs)).isEmpty = false := rfl
      rw [hbe] at hstep
      simp only [Bool.false_eq_true, if_false, Option.some.injEq,
        Prod.mk.injEq] at hstep
      obtain ⟨hb', hf⟩ := hstep
      subst hb'
      refine ⟨by simp only [List.length_nil]; omega, ?_⟩
      intro batch hbatch
      rw [← hf] at hbatch
      injection hbatch with hbeq
      exact ⟨Nat.le_of_lt (hbeq ▸ h), rfl⟩

theorem event_buffer_bound_and_swap_witness :
    ([5] : List Nat).length < 2 ∧
    eventConsumerStep 2 ([5] : List Nat) (RecvResult.received 7) =
      some ([], some [5, 7]) ∧
    (([] : List Nat).length < 2 ∧
      ∀ batch, (some [5, 7] : Option (List Nat)) = some batch →
        batch.length ≤ 2 ∧ ([] : List Nat) = []) :=
  ⟨by decide, by decide,
    event_buffer_bound_and_swap 2 [5] [] (some [5, 7])
      (RecvResult.received 7) (by decide) (by decide)⟩

/-- C7: with an analytics batcher configured, the metric consumer flushes
the batcher once on every receive timeout and exactly once more after the
last metric is processed (on queue closure) before terminating; a failed
flush adds a warning log and is never escalated — it changes neither the
error-log count nor termination. -/
theorem metric_flush_on_timeout_and_once_on_close (systemId : String)
    (t : List MetricEvent) (h : ∀ ev ∈ t, ev.isClosed = false)
    (fo : Except String Unit) :
    (metricConsumerRun systemId true (t ++ [MetricEvent.closed fo])).flushes =
      countTimedOut t + 1 ∧
    (metricConsumerRun systemId true (t ++ [MetricEvent.closed fo])).terminated =
      true ∧
    (metricConsumerRun systemId true (t ++ [MetricEvent.closed fo])).warnLogs =
      (metricConsumerRun systemId true t).warnLogs + warnOnErr fo ∧
    (metricConsumerRun systemId true (t ++ [MetricEvent.closed fo])).errorLogs =
      (metricConsumerRun systemId true t).errorLogs := by
  rw [metricConsumerRun_append_closed systemId t h fo]
  exact ⟨rfl, rfl, rfl, rfl⟩

theorem metric_flush_on_timeout_and_once_on_close_witness :
    (∀ ev ∈ [MetricEvent.timedOut (Except.ok ())], ev.isClosed = false) ∧
    ((metricConsumerRun "system-id" true
        ([MetricEvent.timedOut (Except.ok ())] ++
          [MetricEvent.closed (Except.error "flush failed")])).flushes =
      countTimedOut [MetricEvent.timedOut (Except.ok ())] + 1 ∧
    (metricConsumerRun "system-id" true
        ([MetricEvent.timedOut (Except.ok ())] ++
          [MetricEvent.closed (Except.error "flush failed")])).terminated =
      true ∧
    (metricConsumerRun "system-id" true
        ([MetricEvent.timedOut (Except.ok ())] ++
          [MetricEvent.closed (Except.error "flush failed")])).warnLogs =
      (metricConsumerRun "system-id" true
        [MetricEvent.timedOut (Except.ok ())]).warnLogs +
        warnOnErr (Except.error "flush failed") ∧
    (metricConsumerRun "system-id" true
        ([MetricEvent.timedOut (Except.ok ())] ++
          [MetricEvent.closed (Except.error "flush failed")])).errorLogs =
      (metricConsumerRun "system-id" true
        [MetricEvent.timedOut (Except.ok ())]).errorLogs) :=
  ⟨by
      intro ev hev
      rcases List.mem_singleton.mp hev with rfl
      rfl,
    metric_flush_on_timeout_and_once_on_close "system-id"
      [MetricEvent.timedOut (Except.ok ())]
      (by
        intro ev hev
        rcases List.mem_singleton.mp hev with rfl
        rfl)
      (Except.error "flush failed")⟩

/-- C8: the dispatched batches, concatenated in dispatch order and followed
by whatever is still buffered, are exactly the received records in receive
order.  Each batch is therefore a contiguous segment of the submission
order: for any two records A submitted before B that land in the same
batch, A precedes B, and no record is duplicated, dropped or reordered. -/
theorem event_submission_order_preserved (cap : Nat) (h : 0 < cap)
    (t : List (RecvResult Nat)) (hnc : noClosed t) :
    ((eventConsumerRun cap ([] : List Nat) t).2.1).flatten ++
      (eventConsumerRun cap [] t).1 = receivedOf t := by
  have hcons := eventConsumerRun_conservation cap h t [] hnc
  simpa using hcons

theorem event_submission_order_preserved_witness :
    0 < 2 ∧
    noClosed [RecvResult.received 1, RecvResult.received 2,
      RecvResult.received 3, RecvResult.timedOut] ∧
    ((eventConsumerRun 2 ([] : List Nat)
        [RecvResult.received 1, RecvResult.received 2,
         RecvResult.received 3, RecvResult.timedOut]).2.1).flatten ++
      (eventConsumerRun 2 ([] : List Nat)
        [RecvResult.received 1, RecvResult.received 2,
         RecvResult.received 3, RecvResult.timedOut]).1 =
      receivedOf [RecvResult.received 1, RecvResult.received 2,
        RecvResult.received 3, RecvResult.timedOut] :=
  ⟨by decide, by decide,
    event_submission_order_preserved 2 (by decide)
      [RecvResult.received 1, RecvResult.received 2,
       RecvResult.received 3, RecvResult.timedOut] (by decide)⟩

/-- C9: the bounded event channel and the event batch accumulator take
their capacity from the same configuration value
`event_save_buffer_size`, so the queue holds at most one full batch of
pending events beyond the accumulator. -/
theorem event_channel_capacity_eq_batch_capacity (c : ConnectionsConfig) :
    eventChannelCapacity c = eventBatchCapacity c := rfl

/-- C10: when the analytics forwarder is configured, the tracking message
of a received metric is pushed to it whatever the outcomes of the two
upserts (and of the push itself) were: a dual-upsert failure does not
suppress forwarding. -/
theorem metric_push_regardless_of_upsert_outcome (systemId : String)
    (m : Metric) (o : MetricOutcome) :
    (processMetric systemId true m o).pushes = [m.track] := rfl
